import Mathlib

/-!
Verification of the main-character-meter repository's metrics core.

The repository's logic is embedded shallowly:
* `generateMetricsI` / `hashHandleI` model the interactive app
  (src/unnamed/part_002, `generateMetrics` / `hashHandle`);
* `generateMetricsF` / `hashHandleF` / `buildFrameHtml` / `handleFrameRequest`
  model the frame responder
  (src/supabase/functions/frame-main-character/index.ts);
* `handleProfileProxy` models the profile-lookup proxy (src/unnamed/part_001).

JavaScript strings are modelled through Lean `String` (a list of code points;
`charCodeAt` becomes `Char.toNat`, which agrees for all characters of the
basic multilingual plane).  JavaScript 32-bit operations are modelled over
`Nat`/`Int` with explicit reduction modulo `2 ^ 32` (`toInt32` for the signed
`| 0` fold, `% 2 ^ 32` for the unsigned `>>> 0` fold).  The JavaScript `%`
operator on possibly-negative numbers is `Int.tmod`, `>>` on an `int32`
value is floor division by a power of two (`Int.fdiv`), and
`String.prototype.toLowerCase` is modelled per character on the ASCII range
(`lowerChar`), which is exhaustive for the handles involved.
-/

namespace MCE

/-- The ECMAScript whitespace set used by `String.prototype.trim`
(WhiteSpace plus LineTerminator code points). -/
def isJsWhitespace (c : Char) : Bool :=
  decide (c.toNat = 9 ∨ c.toNat = 10 ∨ c.toNat = 11 ∨ c.toNat = 12 ∨ c.toNat = 13 ∨
    c.toNat = 32 ∨ c.toNat = 160 ∨ c.toNat = 0x1680 ∨
    (0x2000 ≤ c.toNat ∧ c.toNat ≤ 0x200a) ∨
    c.toNat = 0x2028 ∨ c.toNat = 0x2029 ∨ c.toNat = 0x202f ∨ c.toNat = 0x205f ∨
    c.toNat = 0x3000 ∨ c.toNat = 0xfeff)

/-- Single-character model of `toLowerCase` (ASCII range, which covers the
mapping relevant to handle normalization). -/
def lowerChar (c : Char) : Char :=
  if 65 ≤ c.toNat ∧ c.toNat ≤ 90 then Char.ofNat (c.toNat + 32) else c

/-- `replace(/^@/, "")` on the character list: drop one leading `'@'`. -/
def stripAtL (l : List Char) : List Char :=
  match l with
  | c :: rest => if c = '@' then rest else c :: rest
  | [] => []

/-- Drop trailing JS whitespace. -/
def dropTrailWs (l : List Char) : List Char :=
  (l.reverse.dropWhile isJsWhitespace).reverse

/-- `String.prototype.trim` on the character list. -/
def trimL (l : List Char) : List Char :=
  dropTrailWs (l.dropWhile isJsWhitespace)

/-- `s.trim()`. -/
def jsTrim (s : String) : String := ⟨trimL s.data⟩

/-- `s.replace(/^@/, "")`. -/
def jsStripAt (s : String) : String := ⟨stripAtL s.data⟩

/-- `s.toLowerCase()` (ASCII model). -/
def jsToLower (s : String) : String := ⟨s.data.map lowerChar⟩

/-- Normalization of the interactive app (part_002 line 35):
`handle.trim().replace(/^@/, "")` — no lower-casing. -/
def normI (s : String) : String := jsStripAt (jsTrim s)

/-- Normalization of the frame responder (index.ts lines 22 and 39):
`handle.toLowerCase().replace(/^@/, "").trim()`. -/
def normF (s : String) : String := jsTrim (jsStripAt (jsToLower s))

/-- The normalization order stated by the spec (trim, then strip one leading
`'@'`, then lower-case), written out for comparison with the code's `normF`. -/
def specNormalizeLower (s : String) : String := jsToLower (jsStripAt (jsTrim s))

/-- Does the string contain an `'@'` anywhere? -/
def hasAt (s : String) : Bool := s.data.any (fun c => c == '@')

/-- Does the string start with `'@'` or a JS whitespace character? -/
def headIsAtOrWs (s : String) : Bool :=
  match s.data with
  | [] => false
  | c :: _ => c == '@' || isJsWhitespace c

/-- Does the string start with `'@'`? -/
def headIsAt (s : String) : Bool :=
  match s.data with
  | [] => false
  | c :: _ => c == '@'

/-- JavaScript `ToInt32`: reduce an integer into `[-2^31, 2^31)`. -/
def toInt32 (x : Int) : Int := (x + 2 ^ 31) % 2 ^ 32 - 2 ^ 31

/-- One step of the interactive hash (part_002 line 29):
`hash = (hash * 31 + handle.charCodeAt(i)) >>> 0`. -/
def hashStepI (h : Nat) (c : Char) : Nat := (h * 31 + c.toNat) % 2 ^ 32

/-- The interactive app's `hashHandle` (part_002 lines 26–32). -/
def hashHandleI (s : String) : Nat := s.data.foldl hashStepI 0

/-- One step of the frame responder hash (index.ts lines 15–16):
`hash = (hash << 5) - hash + handle.charCodeAt(i); hash |= 0`.
The `<< 5` shift itself truncates to 32 bits, hence the inner `toInt32`. -/
def hashStepF (h : Int) (c : Char) : Int := toInt32 (toInt32 (h * 32) - h + c.toNat)

/-- The frame responder's `hashHandle` (index.ts lines 12–19), ending in
`Math.abs`. -/
def hashHandleF (s : String) : Int := |s.data.foldl hashStepF 0|

/-- Characters left intact by `encodeURIComponent`. -/
def isUnreservedURI (c : Char) : Bool :=
  decide ((65 ≤ c.toNat ∧ c.toNat ≤ 90) ∨ (97 ≤ c.toNat ∧ c.toNat ≤ 122) ∨
    (48 ≤ c.toNat ∧ c.toNat ≤ 57) ∨
    c.toNat = 45 ∨ c.toNat = 95 ∨ c.toNat = 46 ∨ c.toNat = 33 ∨ c.toNat = 126 ∨
    c.toNat = 42 ∨ c.toNat = 39 ∨ c.toNat = 40 ∨ c.toNat = 41)

/-- Upper-case hexadecimal digit, as produced by `encodeURIComponent`. -/
def hexDigitChar (n : Nat) : Char :=
  if n < 10 then Char.ofNat (48 + n) else Char.ofNat (55 + n)

/-- Lower-case hexadecimal digit, as produced by `JSON.stringify` escapes. -/
def hexDigitLowerChar (n : Nat) : Char :=
  if n < 10 then Char.ofNat (48 + n) else Char.ofNat (87 + n)

/-- UTF-8 bytes of a code point. -/
def utf8BytesOfCodepoint (n : Nat) : List Nat :=
  if n < 0x80 then [n]
  else if n < 0x800 then [0xc0 + n / 64, 0x80 + n % 64]
  else if n < 0x10000 then [0xe0 + n / 4096, 0x80 + n / 64 % 64, 0x80 + n % 64]
  else [0xf0 + n / 262144, 0x80 + n / 4096 % 64, 0x80 + n / 64 % 64, 0x80 + n % 64]

/-- `%HH` encoding of one byte. -/
def percentEncodeByte (b : Nat) : List Char :=
  ['%', hexDigitChar (b / 16), hexDigitChar (b % 16)]

/-- `encodeURIComponent`. -/
def encodeURIComponent (s : String) : String :=
  ⟨s.data.flatMap fun c =>
    if isUnreservedURI c then [c]
    else (utf8BytesOfCodepoint c.toNat).flatMap percentEncodeByte⟩

/-- The five flavor captions of the interactive app (part_002 lines 18–24). -/
def captions : List String :=
  ["Plot twist: you were the main character the whole time.",
   "Side quests completed. Main quest energy unlocked.",
   "You give \"I know the author\" energy.",
   "NPCs are just background characters in your highlight reel.",
   "Somewhere, a writer is adding you to season two."]

/-- The interactive app's `EnergyResult` (part_002 lines 9–16). -/
structure EnergyResult where
  mainCharacter : Nat
  npcEnergy : Int
  plotArmor : String
  caption : String
  fid : Nat
  avatarUrl : String
deriving DecidableEq

/-- Part_002 line 39: `mainCharacter = (hash % 51) + 50`. -/
def mainCharacterOfHashI (hash : Nat) : Nat := hash % 51 + 50

/-- Part_002 lines 40–41: `npcEnergyRaw = 100 - mainCharacter + ((hash >> 3) % 11) - 5`
then `npcEnergy = Math.max(0, Math.min(100, npcEnergyRaw))`.
`hash >> 3` converts the unsigned 32-bit hash to a signed 32-bit value and
shifts arithmetically, i.e. floor-divides by 8; the `% 11` on the possibly
negative result is JavaScript remainder (`Int.tmod`). -/
def npcEnergyOfHashI (hash : Nat) : Int :=
  let npcEnergyRaw : Int :=
    100 - (mainCharacterOfHashI hash : Int) + ((toInt32 (hash : Int)).fdiv 8).tmod 11 - 5
  max 0 (min 100 npcEnergyRaw)

/-- Part_002 lines 43–44: `armorSeed = (hash >> 7) % 100` bucketed into
High (`> 70`) / Medium (`> 40`) / Low. -/
def plotArmorOfHashI (hash : Nat) : String :=
  let armorSeed : Int := ((toInt32 (hash : Int)).fdiv 128).tmod 100
  if armorSeed > 70 then "High" else if armorSeed > 40 then "Medium" else "Low"

/-- Part_002 line 46: `caption = captions[hash % captions.length]`. -/
def captionOfHashI (hash : Nat) : String := captions.getD (hash % captions.length) ""

/-- The interactive app's `generateMetrics` (part_002 lines 34–60),
assembled from the per-field derivations above. -/
def generateMetricsI (handle : String) : EnergyResult :=
  let trimmed := normI handle
  let base := if trimmed = "" then "maincharacter" else trimmed
  let hash := hashHandleI (if base = "" then "maincharacter" else base)
  { mainCharacter := mainCharacterOfHashI hash,
    npcEnergy := npcEnergyOfHashI hash,
    plotArmor := plotArmorOfHashI hash,
    caption := captionOfHashI hash,
    fid := hash % 900000 + 10000,
    avatarUrl := "https://api.dicebear.com/9.x/thumbs/svg?seed=" ++
      encodeURIComponent (jsToLower base) }

/-- The frame responder's metrics record (index.ts line 30). -/
structure FrameMetrics where
  mainCharacter : Int
  npcEnergy : Int
  plotArmor : String
deriving DecidableEq

/-- `plotArmorLevels` of the frame responder (index.ts line 27). -/
def plotArmorLevels : List String := ["Low", "Medium", "High"]

/-- The frame responder's `npcEnergy` derivation (index.ts line 26):
`100 - (hash % 41)`. -/
def npcEnergyOfHash (hash : Int) : Int := 100 - hash.tmod 41

/-- The hash value computed inside the interactive `generateMetrics`
(part_002 lines 35–37), spelled out for stating field equations. -/
def hashI (handle : String) : Nat :=
  let trimmed := normI handle
  let base := if trimmed = "" then "maincharacter" else trimmed
  hashHandleI (if base = "" then "maincharacter" else base)

/-- The hash value computed inside the frame `generateMetrics`
(index.ts lines 22–23), spelled out for stating field equations. -/
def hashF (handle : String) : Int :=
  let normalized := normF handle
  hashHandleF (if normalized = "" then "anon" else normalized)

/-- The frame responder's `generateMetrics` (index.ts lines 21–31). -/
def generateMetricsF (handle : String) : FrameMetrics :=
  let normalized := normF handle
  let hash := hashHandleF (if normalized = "" then "anon" else normalized)
  { mainCharacter := hash.tmod 51 + 50,
    npcEnergy := npcEnergyOfHash hash,
    plotArmor := plotArmorLevels.getD (hash.tmod 3).toNat "" }

/-- `JSON.stringify` escaping of one character inside a string literal. -/
def jsonEscapeChar (c : Char) : List Char :=
  if c.toNat = 34 then ['\\', '"']
  else if c.toNat = 92 then ['\\', '\\']
  else if c.toNat = 8 then ['\\', 'b']
  else if c.toNat = 9 then ['\\', 't']
  else if c.toNat = 10 then ['\\', 'n']
  else if c.toNat = 12 then ['\\', 'f']
  else if c.toNat = 13 then ['\\', 'r']
  else if c.toNat < 32 then
    ['\\', 'u', '0', '0', hexDigitLowerChar (c.toNat / 16), hexDigitLowerChar (c.toNat % 16)]
  else [c]

/-- `JSON.stringify` of a string value. -/
def jsonStringifyStr (s : String) : String :=
  ⟨'"' :: (s.data.flatMap jsonEscapeChar ++ ['"'])⟩

/-- `JSON.stringify({ handle: normalized })`. -/
def jsonStringifyHandleState (normalized : String) : String :=
  "\x7b" ++ jsonStringifyStr "handle" ++ ":" ++ jsonStringifyStr normalized ++ "\x7d"

/-- `.replace(/"/g, "&quot;")`. -/
def escapeQuotes (s : String) : String :=
  ⟨s.data.flatMap fun c => if c.toNat = 34 then "&quot;".data else [c]⟩

/-- The `state` attribute value of the frame document (index.ts line 47). -/
def frameState (normalized : String) : String :=
  escapeQuotes (jsonStringifyHandleState normalized)

/-- The subtitle of the frame document (index.ts lines 42–45). -/
def frameSubtitle (normalized : String) (m : FrameMetrics) : String :=
  if 0 < normalized.length then
    "@" ++ normalized ++ ": MC " ++ toString m.mainCharacter ++ " · NPC " ++
      toString m.npcEnergy ++ " · Armor " ++ m.plotArmor
  else "Drop your handle to scan your Main Character Energy"

/-- `buildFrameHtml` (index.ts lines 33–67). -/
def buildFrameHtml (handle imageUrl appUrl : String) : String :=
  let normalized := normF handle
  let m := generateMetricsF normalized
  let subtitle := frameSubtitle normalized m
  let state := frameState normalized
  "<!doctype html>\n<html>\n  <head>\n    <meta property=\"og:title\" content=\"Main Character Energy\" />\n    <meta property=\"og:description\" content=\"" ++
    subtitle ++
    "\" />\n    <meta property=\"og:image\" content=\"" ++
    imageUrl ++
    "\" />\n\n    <meta property=\"fc:frame\" content=\"vNext\" />\n    <meta property=\"fc:frame:image\" content=\"" ++
    imageUrl ++
    "\" />\n    <meta property=\"fc:frame:button:1\" content=\"Scan again\" />\n    <meta property=\"fc:frame:button:1:action\" content=\"post\" />\n    <meta property=\"fc:frame:input:text\" content=\"Enter your Farcaster handle\" />\n    <meta property=\"fc:frame:state\" content=\"" ++
    state ++
    "\" />\n    <meta property=\"fc:frame:post_url\" content=\"" ++
    appUrl ++
    "/frame-main-character\" />\n  </head>\n\n  <body></body>\n</html>"

/-- HTTP methods, as branched on by both serverless handlers. -/
inductive HttpMethod where
  | get
  | post
  | options
  | other (name : String)
deriving DecidableEq

/-- The `untrustedData` object of a frame POST body. -/
structure UntrustedData where
  inputText : Option String
deriving DecidableEq

/-- A parsed frame POST body. -/
structure FramePostBody where
  untrustedData : Option UntrustedData
deriving DecidableEq

/-- An HTTP response: status plus optional body text. -/
structure HttpResponse where
  status : Nat
  body : Option String
deriving DecidableEq

/-- The fixed post-back base URL (index.ts line 76). -/
def frameAppUrl : String := "https://yatrugjplwgsqnehumcu.functions.supabase.co"

/-- The fixed card image URL (index.ts line 77). -/
def frameImageUrl : String := "https://lovable.dev/opengraph-image-p98pqg.png"

/-- The frame responder's `serve` handler (index.ts lines 69–115).
`body = none` models a POST whose JSON parse failed, which the code turns
into `{}` via `.catch(() => ({}))`; missing fields become the empty input. -/
def handleFrameRequest (method : HttpMethod) (body : Option FramePostBody) : HttpResponse :=
  match method with
  | .options => { status := 200, body := none }
  | .get => { status := 200, body := some (buildFrameHtml "" frameImageUrl frameAppUrl) }
  | .post =>
    let parsed := body.getD { untrustedData := none }
    let untrusted := parsed.untrustedData.getD { inputText := none }
    let inputText := untrusted.inputText.getD ""
    { status := 200, body := some (buildFrameHtml inputText frameImageUrl frameAppUrl) }
  | .other _ => { status := 405, body := some "Method not allowed" }

/-- A user record as returned by the upstream directory API. -/
structure NeynarUser where
  fid : Nat
  username : String
  display_name : String
  pfp_url : String
  bio : Option String
deriving DecidableEq

/-- Possible outcomes of the proxy's upstream `fetch`. -/
inductive UpstreamResult where
  | ok (users : List NeynarUser)
  | httpError (status : Nat) (text : String)
  | threw (message : String)
deriving DecidableEq

/-- A parsed proxy request body: `{ username }`, possibly absent. -/
structure ProxyRequestBody where
  username : Option String
deriving DecidableEq

/-- The profile payload returned by the proxy on success. -/
structure ProfilePayload where
  fid : Nat
  username : String
  display_name : String
  pfp_url : String
  bio : String
deriving DecidableEq

/-- JSON body of a proxy response. -/
inductive ProxyBody where
  | empty
  | err (message : String)
  | profile (p : ProfilePayload)
deriving DecidableEq

/-- A proxy HTTP response. -/
structure ProxyResponse where
  status : Nat
  body : ProxyBody
deriving DecidableEq

/-- The profile-lookup proxy's `serve` handler (part_001 lines 9–90).
`reqBody` is the result of `req.json()` (`.error msg` models a thrown parse
error caught at line 82); `apiKey` is `Deno.env.get`, with the empty string
being falsy like an absent key; `upstream` is the outcome of the `fetch`. -/
def handleProfileProxy (method : HttpMethod) (apiKey : Option String)
    (reqBody : Except String ProxyRequestBody) (upstream : UpstreamResult) : ProxyResponse :=
  if method = .options then { status := 200, body := .empty }
  else
    match reqBody with
    | .error msg => { status := 500, body := .err msg }
    | .ok b =>
      if b.username = none ∨ b.username = some "" then
        { status := 400, body := .err "Username is required" }
      else if apiKey = none ∨ apiKey = some "" then
        { status := 500, body := .err "API key not configured" }
      else
        match upstream with
        | .threw msg => { status := 500, body := .err msg }
        | .httpError st _ => { status := st, body := .err "Failed to fetch profile from Neynar" }
        | .ok [] => { status := 404, body := .err "User not found" }
        | .ok (u :: _) =>
          { status := 200,
            body := .profile { fid := u.fid, username := u.username,
                               display_name := u.display_name, pfp_url := u.pfp_url,
                               bio := u.bio.getD "" } }

/-- Is the first list a prefix of the second (executable)? -/
def listPrefixL : List Char → List Char → Bool
  | [], _ => true
  | _ :: _, [] => false
  | a :: as, b :: bs => a == b && listPrefixL as bs

/-- Does the needle occur in the haystack (executable substring search)? -/
def containsAux (needle : List Char) : List Char → Bool
  | [] => needle.isEmpty
  | c :: rest => listPrefixL needle (c :: rest) || containsAux needle rest

/-- Does `hay` contain `needle` as a contiguous substring? -/
def strContains (hay needle : String) : Bool := containsAux needle.data hay.data

/-- The head of `l`, if any, fails `p`. -/
def headNo (p : Char → Bool) (l : List Char) : Prop :=
  ∀ c t, l = c :: t → p c = false

/-- The last element of `l`, if any, fails `p`. -/
def lastNo (p : Char → Bool) (l : List Char) : Prop := headNo p l.reverse

theorem headNo_dropWhile (p : Char → Bool) (l : List Char) : headNo p (l.dropWhile p) := by
  induction l with
  | nil => intro c t h; simp [List.dropWhile] at h
  | cons a as ih =>
    intro c t h
    rw [List.dropWhile_cons] at h
    by_cases ha : p a
    · rw [if_pos ha] at h
      exact ih c t h
    · rw [if_neg ha] at h
      cases h
      simp only [Bool.not_eq_true] at ha
      exact ha

theorem dropWhile_eq_self_of_headNo {p : Char → Bool} {l : List Char} (h : headNo p l) :
    l.dropWhile p = l := by
  cases l with
  | nil => rfl
  | cons a as =>
    rw [List.dropWhile_cons, h a as rfl]
    simp

theorem headNo_append_left {p : Char → Bool} {l₁ l₂ : List Char}
    (h : headNo p (l₁ ++ l₂)) : headNo p l₁ := by
  cases l₁ with
  | nil => intro c t ht; simp at ht
  | cons a as =>
    intro c t ht
    cases ht
    exact h a (as ++ l₂) rfl

theorem dropTrailWs_decomp (m : List Char) :
    m = dropTrailWs m ++ (m.reverse.takeWhile isJsWhitespace).reverse := by
  unfold dropTrailWs
  conv_lhs =>
    rw [← List.reverse_reverse m,
      ← List.takeWhile_append_dropWhile (p := isJsWhitespace) (l := m.reverse)]
  rw [List.reverse_append]

theorem headNo_dropTrailWs {m : List Char} (h : headNo isJsWhitespace m) :
    headNo isJsWhitespace (dropTrailWs m) := by
  rw [dropTrailWs_decomp m] at h
  exact headNo_append_left h

theorem lastNo_dropTrailWs (m : List Char) : lastNo isJsWhitespace (dropTrailWs m) := by
  unfold lastNo dropTrailWs
  rw [List.reverse_reverse]
  exact headNo_dropWhile _ _

theorem dropTrailWs_eq_self {m : List Char} (h : lastNo isJsWhitespace m) :
    dropTrailWs m = m := by
  unfold dropTrailWs
  rw [dropWhile_eq_self_of_headNo h, List.reverse_reverse]

theorem headNo_trimL (l : List Char) : headNo isJsWhitespace (trimL l) :=
  headNo_dropTrailWs (headNo_dropWhile _ _)

theorem lastNo_trimL (l : List Char) : lastNo isJsWhitespace (trimL l) :=
  lastNo_dropTrailWs _

theorem trimL_eq_self {l : List Char} (h1 : headNo isJsWhitespace l)
    (h2 : lastNo isJsWhitespace l) : trimL l = l := by
  unfold trimL
  rw [dropWhile_eq_self_of_headNo h1, dropTrailWs_eq_self h2]

theorem stripAtL_cons (c : Char) (t : List Char) :
    stripAtL (c :: t) = if c = '@' then t else c :: t := rfl

theorem stripAtL_eq_self {l : List Char} (h : headNo (fun c => c == '@') l) :
    stripAtL l = l := by
  cases l with
  | nil => rfl
  | cons a as =>
    rw [stripAtL_cons, if_neg]
    have := h a as rfl
    simp only [beq_eq_false_iff_ne] at this
    exact this

theorem lastNo_stripAtL {l : List Char} (h : lastNo isJsWhitespace l) :
    lastNo isJsWhitespace (stripAtL l) := by
  cases l with
  | nil => exact h
  | cons a as =>
    rw [stripAtL_cons]
    by_cases ha : a = '@'
    · rw [if_pos ha]
      unfold lastNo at h ⊢
      rw [List.reverse_cons] at h
      exact headNo_append_left h
    · rw [if_neg ha]
      exact h

theorem mem_stripAtL {c : Char} {l : List Char} (h : c ∈ stripAtL l) : c ∈ l := by
  cases l with
  | nil => exact h
  | cons a as =>
    rw [stripAtL_cons] at h
    by_cases ha : a = '@'
    · rw [if_pos ha] at h
      exact List.mem_cons_of_mem a h
    · rw [if_neg ha] at h
      exact h

theorem mem_dropTrailWs {c : Char} {m : List Char} (h : c ∈ dropTrailWs m) : c ∈ m := by
  unfold dropTrailWs at h
  rw [List.mem_reverse] at h
  have h2 := (List.dropWhile_sublist (l := m.reverse) isJsWhitespace).subset h
  rwa [List.mem_reverse] at h2

theorem mem_trimL {c : Char} {l : List Char} (h : c ∈ trimL l) : c ∈ l := by
  unfold trimL at h
  exact (List.dropWhile_sublist isJsWhitespace).subset (mem_dropTrailWs h)

theorem char_toNat_inj {a b : Char} (h : a.toNat = b.toNat) : a = b := by
  have h2 := congrArg Char.ofNat h
  rwa [Char.ofNat_toNat, Char.ofNat_toNat] at h2

theorem ofNat_toNat_valid : ∀ n : Nat, 97 ≤ n → n ≤ 122 → (Char.ofNat n).toNat = n := by
  intro n h1 h2
  interval_cases n <;> decide

theorem lowerChar_toNat (c : Char) :
    (lowerChar c).toNat =
      if 65 ≤ c.toNat ∧ c.toNat ≤ 90 then c.toNat + 32 else c.toNat := by
  unfold lowerChar
  by_cases h : 65 ≤ c.toNat ∧ c.toNat ≤ 90
  · rw [if_pos h, if_pos h, ofNat_toNat_valid _ (by omega) (by omega)]
  · rw [if_neg h, if_neg h]

theorem isJsWhitespace_lowerChar (c : Char) :
    isJsWhitespace (lowerChar c) = isJsWhitespace c := by
  unfold isJsWhitespace
  rw [decide_eq_decide, lowerChar_toNat]
  by_cases h : 65 ≤ c.toNat ∧ c.toNat ≤ 90
  · rw [if_pos h]
    omega
  · rw [if_neg h]

theorem lowerChar_beq_at (c : Char) : (lowerChar c == '@') = (c == '@') := by
  by_cases h : c = '@'
  · rw [h]
    decide
  · have hne : lowerChar c ≠ '@' := by
      intro hEq
      have ht := congrArg Char.toNat hEq
      rw [lowerChar_toNat] at ht
      have h64 : ('@' : Char).toNat = 64 := by decide
      rw [h64] at ht
      by_cases hc : 65 ≤ c.toNat ∧ c.toNat ≤ 90
      · rw [if_pos hc] at ht
        omega
      · rw [if_neg hc] at ht
        exact h (char_toNat_inj (by rw [ht, h64]))
    simp [hne, h]

theorem lowerChar_idem (c : Char) : lowerChar (lowerChar c) = lowerChar c := by
  apply char_toNat_inj
  rw [lowerChar_toNat (lowerChar c), lowerChar_toNat c]
  split_ifs <;> omega

theorem map_eq_self_of_fixed {f : Char → Char} {l : List Char}
    (h : ∀ c ∈ l, f c = c) : l.map f = l := by
  have h2 : l.map f = l.map id := List.map_congr_left h
  rw [h2, List.map_id]

theorem lower_fixed_of_mem_map {c : Char} {l : List Char}
    (h : c ∈ l.map lowerChar) : lowerChar c = c := by
  obtain ⟨a, -, rfl⟩ := List.mem_map.mp h
  exact lowerChar_idem a

theorem wsComp : isJsWhitespace ∘ lowerChar = isJsWhitespace :=
  funext fun c => isJsWhitespace_lowerChar c

theorem dropWhile_ws_map_lower (l : List Char) :
    (l.map lowerChar).dropWhile isJsWhitespace =
      (l.dropWhile isJsWhitespace).map lowerChar := by
  rw [List.dropWhile_map, wsComp]

theorem dropTrailWs_map_lower (l : List Char) :
    dropTrailWs (l.map lowerChar) = (dropTrailWs l).map lowerChar := by
  unfold dropTrailWs
  rw [← List.map_reverse, dropWhile_ws_map_lower, List.map_reverse]

theorem trimL_map_lower (l : List Char) :
    trimL (l.map lowerChar) = (trimL l).map lowerChar := by
  unfold trimL
  rw [dropWhile_ws_map_lower, dropTrailWs_map_lower]

theorem dropWhile_eq_nil_of_all {p : Char → Bool} {l : List Char}
    (h : ∀ c ∈ l, p c = true) : l.dropWhile p = [] := by
  rw [List.dropWhile_eq_nil_iff]
  intro x hx
  exact h x hx

theorem trimL_eq_nil_of_all {l : List Char} (h : ∀ c ∈ l, isJsWhitespace c = true) :
    trimL l = [] := by
  unfold trimL
  rw [dropWhile_eq_nil_of_all h]
  rfl

theorem normI_eq_empty {s : String} (h : ∀ c ∈ s.data, isJsWhitespace c = true) :
    normI s = "" := by
  unfold normI jsStripAt jsTrim
  rw [trimL_eq_nil_of_all h]
  rfl

theorem normF_eq_empty {s : String} (h : ∀ c ∈ s.data, isJsWhitespace c = true) :
    normF s = "" := by
  unfold normF jsTrim jsStripAt jsToLower
  have hmap : ∀ c ∈ s.data.map lowerChar, isJsWhitespace c = true := by
    intro c hc
    obtain ⟨a, ha, rfl⟩ := List.mem_map.mp hc
    rw [isJsWhitespace_lowerChar]
    exact h a ha
  have hstrip : stripAtL (s.data.map lowerChar) = s.data.map lowerChar := by
    apply stripAtL_eq_self
    intro c t hct
    have hcmem : c ∈ s.data.map lowerChar := by
      rw [hct]
      exact List.mem_cons_self _ _
    have hw := hmap c hcmem
    rw [beq_eq_false_iff_ne]
    intro hEq
    rw [hEq] at hw
    exact absurd hw (by decide)
  rw [hstrip, trimL_eq_nil_of_all hmap]

theorem generateMetricsI_congr {s t : String}
    (h : (if normI s = "" then "maincharacter" else normI s) =
         (if normI t = "" then "maincharacter" else normI t)) :
    generateMetricsI s = generateMetricsI t := by
  simp only [generateMetricsI]
  rw [h]

theorem generateMetricsF_congr {s t : String}
    (h : (if normF s = "" then "anon" else normF s) =
         (if normF t = "" then "anon" else normF t)) :
    generateMetricsF s = generateMetricsF t := by
  simp only [generateMetricsF]
  rw [h]

theorem getD_mem_of_lt {α : Type} {l : List α} {i : Nat} (h : i < l.length) (d : α) :
    l.getD i d ∈ l := by
  rw [List.getD_eq_getElem?_getD, List.getElem?_eq_getElem h]
  simp only [Option.getD_some]
  exact List.getElem_mem h

theorem toInt32_emod (x : Int) : toInt32 x % 2 ^ 32 = x % 2 ^ 32 := by
  unfold toInt32
  omega

theorem toInt32_congr {x y : Int} (h : x % 2 ^ 32 = y % 2 ^ 32) :
    toInt32 x = toInt32 y := by
  unfold toInt32
  omega

theorem toInt32_bounds (x : Int) : -(2 ^ 31) ≤ toInt32 x ∧ toInt32 x < 2 ^ 31 := by
  unfold toInt32
  omega

theorem toInt32_zero : toInt32 0 = 0 := by
  unfold toInt32
  decide

theorem hashStep_core (A B u k : Int)
    (h1 : A % 2 ^ 32 = u % 2 ^ 32)
    (h2 : B % 2 ^ 32 = A * 32 % 2 ^ 32) :
    (B - A + k) % 2 ^ 32 = (u * 31 + k) % 2 ^ 32 % 2 ^ 32 := by
  omega

theorem hashStepF_eq (u : Nat) (c : Char) :
    hashStepF (toInt32 (u : Int)) c = toInt32 ((hashStepI u c : Nat) : Int) := by
  unfold hashStepF hashStepI
  apply toInt32_congr
  have hcast : (((u * 31 + c.toNat) % 2 ^ 32 : Nat) : Int) =
      ((u : Int) * 31 + (c.toNat : Int)) % 2 ^ 32 := by
    push_cast
    norm_num
  rw [hcast]
  exact hashStep_core (toInt32 (u : Int)) (toInt32 (toInt32 (u : Int) * 32))
    (u : Int) (c.toNat : Int) (toInt32_emod _) (toInt32_emod _)

theorem foldF_eq_foldI (l : List Char) : ∀ (a : Int) (u : Nat), a = toInt32 (u : Int) →
    l.foldl hashStepF a = toInt32 ((l.foldl hashStepI u : Nat) : Int) := by
  induction l with
  | nil =>
    intro a u h
    rw [List.foldl_nil, List.foldl_nil]
    exact h
  | cons c t ih =>
    intro a u h
    rw [List.foldl_cons, List.foldl_cons]
    refine ih _ _ ?_
    rw [h]
    exact hashStepF_eq u c

theorem foldF_eq_foldI_zero (l : List Char) :
    l.foldl hashStepF 0 = toInt32 ((l.foldl hashStepI 0 : Nat) : Int) := by
  refine foldF_eq_foldI l 0 0 ?_
  rw [Nat.cast_zero, toInt32_zero]

theorem foldF_bounds (l : List Char) : ∀ a : Int,
    -(2 ^ 31) ≤ a → a < 2 ^ 31 →
    -(2 ^ 31) ≤ l.foldl hashStepF a ∧ l.foldl hashStepF a < 2 ^ 31 := by
  induction l with
  | nil => intro a h1 h2; exact ⟨h1, h2⟩
  | cons c t ih =>
    intro a h1 h2
    rw [List.foldl_cons]
    have hb := toInt32_bounds (toInt32 (a * 32) - a + c.toNat)
    exact ih _ hb.1 hb.2

theorem hashHandleF_nonneg (s : String) : 0 ≤ hashHandleF s := abs_nonneg _

theorem hashHandleF_le (s : String) : hashHandleF s ≤ 2 ^ 31 := by
  unfold hashHandleF
  have hb := foldF_bounds s.data 0 (by norm_num) (by norm_num)
  rw [abs_le]
  omega

theorem normI_unfold (s : String) : normI s = jsStripAt (jsTrim s) := rfl

theorem normF_unfold (s : String) : normF s = jsTrim (jsStripAt (jsToLower s)) := rfl

theorem jsTrim_eq_self {s : String} (h1 : headNo isJsWhitespace s.data)
    (h2 : lastNo isJsWhitespace s.data) : jsTrim s = s := by
  unfold jsTrim
  rw [trimL_eq_self h1 h2]

theorem jsStripAt_eq_self {s : String} (h : headNo (fun c => c == '@') s.data) :
    jsStripAt s = s := by
  unfold jsStripAt
  rw [stripAtL_eq_self h]

theorem jsToLower_eq_self {s : String} (h : ∀ c ∈ s.data, lowerChar c = c) :
    jsToLower s = s := by
  unfold jsToLower
  rw [map_eq_self_of_fixed h]

theorem headIsAtOrWs_false {s : String} (h : headIsAtOrWs s = false) :
    headNo (fun c => c == '@') s.data ∧ headNo isJsWhitespace s.data := by
  unfold headIsAtOrWs at h
  constructor <;> intro c t hct <;> rw [hct] at h <;> dsimp only at h <;>
    rw [Bool.or_eq_false_iff] at h
  · exact h.1
  · exact h.2

theorem headIsAt_false {s : String} (h : headIsAt s = false) :
    headNo (fun c => c == '@') s.data := by
  unfold headIsAt at h
  intro c t hct
  rw [hct] at h
  exact h

theorem metricsI_mainCharacter (s : String) :
    (generateMetricsI s).mainCharacter = mainCharacterOfHashI (hashI s) := by
  dsimp only [generateMetricsI, hashI]

theorem metricsI_npcEnergy (s : String) :
    (generateMetricsI s).npcEnergy = npcEnergyOfHashI (hashI s) := by
  dsimp only [generateMetricsI, hashI]

theorem metricsI_plotArmor (s : String) :
    (generateMetricsI s).plotArmor = plotArmorOfHashI (hashI s) := by
  dsimp only [generateMetricsI, hashI]

theorem metricsI_caption (s : String) :
    (generateMetricsI s).caption = captionOfHashI (hashI s) := by
  dsimp only [generateMetricsI, hashI]

theorem metricsF_mainCharacter (s : String) :
    (generateMetricsF s).mainCharacter = (hashF s).tmod 51 + 50 := by
  dsimp only [generateMetricsF, hashF]

theorem metricsF_npcEnergy (s : String) :
    (generateMetricsF s).npcEnergy = npcEnergyOfHash (hashF s) := by
  dsimp only [generateMetricsF, hashF]

theorem metricsF_plotArmor (s : String) :
    (generateMetricsF s).plotArmor = plotArmorLevels.getD ((hashF s).tmod 3).toNat "" := by
  dsimp only [generateMetricsF, hashF]

theorem hashF_nonneg (s : String) : 0 ≤ hashF s := hashHandleF_nonneg _

theorem mcI_bounds (hash : Nat) :
    50 ≤ mainCharacterOfHashI hash ∧ mainCharacterOfHashI hash ≤ 100 := by
  unfold mainCharacterOfHashI
  have h := Nat.mod_lt hash (show 51 > 0 by norm_num)
  omega

theorem npcI_bounds (hash : Nat) :
    0 ≤ npcEnergyOfHashI hash ∧ npcEnergyOfHashI hash ≤ 100 := by
  unfold npcEnergyOfHashI
  exact ⟨le_max_left 0 _, max_le (by norm_num) (min_le_left _ _)⟩

theorem armorI_mem (hash : Nat) :
    plotArmorOfHashI hash ∈ (["Low", "Medium", "High"] : List String) := by
  unfold plotArmorOfHashI
  dsimp only
  split_ifs <;> decide

theorem captionI_mem (hash : Nat) : captionOfHashI hash ∈ captions := by
  unfold captionOfHashI
  refine getD_mem_of_lt ?_ ""
  exact Nat.mod_lt hash (by decide)

theorem mcF_bounds (h : Int) (h0 : 0 ≤ h) :
    50 ≤ h.tmod 51 + 50 ∧ h.tmod 51 + 50 ≤ 100 := by
  have h1 := Int.tmod_nonneg 51 h0
  have h2 := Int.tmod_lt_of_pos h (show (0 : Int) < 51 by norm_num)
  omega

theorem npcF_bounds (h : Int) (h0 : 0 ≤ h) :
    60 ≤ npcEnergyOfHash h ∧ npcEnergyOfHash h ≤ 100 := by
  unfold npcEnergyOfHash
  have h1 := Int.tmod_nonneg 41 h0
  have h2 := Int.tmod_lt_of_pos h (show (0 : Int) < 41 by norm_num)
  omega

theorem armorF_mem (h : Int) (h0 : 0 ≤ h) :
    plotArmorLevels.getD (h.tmod 3).toNat "" ∈ (["Low", "Medium", "High"] : List String) := by
  have h1 := Int.tmod_nonneg 3 h0
  have h2 := Int.tmod_lt_of_pos h (show (0 : Int) < 3 by norm_num)
  have h3 : (h.tmod 3).toNat < plotArmorLevels.length := by
    show (h.tmod 3).toNat < 3
    omega
  exact getD_mem_of_lt h3 ""

/-- C1: the metrics generator is deterministic — any two raw handles with the
same normalized form produce identical metrics records, in the interactive
variant and in the frame-responder variant (each result is a pure function of
its call site's normalized handle alone). -/
theorem C1_generateMetrics_deterministic (s₁ s₂ : String) :
    (normI s₁ = normI s₂ → generateMetricsI s₁ = generateMetricsI s₂) ∧
    (normF s₁ = normF s₂ → generateMetricsF s₁ = generateMetricsF s₂) := by
  constructor
  · intro h
    exact generateMetricsI_congr (by rw [h])
  · intro h
    exact generateMetricsF_congr (by rw [h])

/-- Witness for C1 at the concrete pairs ("@foo", "foo") and ("@Foo", "foo"). -/
theorem C1_generateMetrics_deterministic_witness :
    generateMetricsI "@foo" = generateMetricsI "foo" ∧
    generateMetricsF "@Foo" = generateMetricsF "foo" :=
  ⟨(C1_generateMetrics_deterministic "@foo" "foo").1 (by decide),
   (C1_generateMetrics_deterministic "@Foo" "foo").2 (by decide)⟩

/-- C2: range/domain invariants of the metrics — for every input,
`mainCharacter` lies in [50, 100], `npcEnergy` lies in [0, 100], `plotArmor`
is one of Low/Medium/High (both variants), and the interactive caption is one
of the five fixed flavor strings. -/
theorem C2_metrics_ranges (s : String) :
    (50 ≤ (generateMetricsI s).mainCharacter ∧ (generateMetricsI s).mainCharacter ≤ 100) ∧
    (0 ≤ (generateMetricsI s).npcEnergy ∧ (generateMetricsI s).npcEnergy ≤ 100) ∧
    (generateMetricsI s).plotArmor ∈ (["Low", "Medium", "High"] : List String) ∧
    (generateMetricsI s).caption ∈ captions ∧
    (50 ≤ (generateMetricsF s).mainCharacter ∧ (generateMetricsF s).mainCharacter ≤ 100) ∧
    (0 ≤ (generateMetricsF s).npcEnergy ∧ (generateMetricsF s).npcEnergy ≤ 100) ∧
    (generateMetricsF s).plotArmor ∈ (["Low", "Medium", "High"] : List String) := by
  refine ⟨?_, ?_, ?_, ?_, ?_, ?_, ?_⟩
  · rw [metricsI_mainCharacter]
    exact mcI_bounds _
  · rw [metricsI_npcEnergy]
    exact npcI_bounds _
  · rw [metricsI_plotArmor]
    exact armorI_mem _
  · rw [metricsI_caption]
    exact captionI_mem _
  · rw [metricsF_mainCharacter]
    exact mcF_bounds _ (hashF_nonneg s)
  · rw [metricsF_npcEnergy]
    have h := npcF_bounds (hashF s) (hashF_nonneg s)
    exact ⟨le_trans (by norm_num) h.1, h.2⟩
  · rw [metricsF_plotArmor]
    exact armorF_mem _ (hashF_nonneg s)

/-- Counterexample to C3 as stated: the frame responder's `npcEnergy` never
attains 59, so its attained set is not the closed range [59, 100]. -/
theorem C3_npcEnergy_range_counterexample :
    ¬ ∀ n : Int, ((∃ h : Nat, h ≤ 2 ^ 31 ∧ npcEnergyOfHash (h : Int) = n) ↔
      (59 ≤ n ∧ n ≤ 100)) := by
  intro hall
  obtain ⟨k, -, hk⟩ := (hall 59).mpr (by norm_num)
  unfold npcEnergyOfHash at hk
  have h1 : 0 ≤ ((k : Nat) : Int).tmod 41 := Int.tmod_nonneg 41 (Int.natCast_nonneg k)
  have h2 : ((k : Nat) : Int).tmod 41 < 41 :=
    Int.tmod_lt_of_pos _ (show (0 : Int) < 41 by norm_num)
  omega

/-- C3 (amended): the frame responder computes
`npcEnergy = 100 - (hash % 41)` from the hash of its normalized handle, and
over all hash values (the naturals up to 2^31) this attains exactly the
closed integer range [60, 100] — not [59, 100]. -/
theorem C3_npcEnergy_formula_and_range :
    (∀ s : String, (generateMetricsF s).npcEnergy = npcEnergyOfHash (hashF s)) ∧
    (∀ n : Int, ((∃ h : Nat, h ≤ 2 ^ 31 ∧ npcEnergyOfHash (h : Int) = n) ↔
      (60 ≤ n ∧ n ≤ 100))) := by
  constructor
  · intro s
    exact metricsF_npcEnergy s
  · intro n
    constructor
    · rintro ⟨k, -, hk⟩
      unfold npcEnergyOfHash at hk
      have h1 : 0 ≤ ((k : Nat) : Int).tmod 41 := Int.tmod_nonneg 41 (Int.natCast_nonneg k)
      have h2 : ((k : Nat) : Int).tmod 41 < 41 :=
        Int.tmod_lt_of_pos _ (show (0 : Int) < 41 by norm_num)
      omega
    · rintro ⟨h60, h100⟩
      refine ⟨(100 - n).toNat, by omega, ?_⟩
      unfold npcEnergyOfHash
      have hc : (((100 - n).toNat : Nat) : Int) = 100 - n := by omega
      rw [hc, Int.tmod_eq_emod (by omega) (by norm_num),
        Int.emod_eq_of_lt (by omega) (by omega)]
      omega

/-- Counterexample to C4 as stated: the raw handle " @Foo" does not normalize
to "foo" in either variant, while the spec's trim-strip-lower order does give
"foo". -/
theorem C4_normalization_order_counterexample :
    normF " @Foo" ≠ "foo" ∧ normI " @Foo" ≠ "foo" ∧
    specNormalizeLower " @Foo" = "foo" := by
  decide

/-- C4 (amended): the frame variant normalizes by lower-casing, then
stripping one leading '@', then trimming — so " @Foo" normalizes to "@foo"
(the whitespace blocks the strip, the trim then exposes the '@'); the
interactive variant trims then strips without lower-casing, giving "Foo"; on
every handle containing no '@' the frame normalization agrees with the
spec's trim-then-strip-then-lower-case order. -/
theorem C4_normalization_order :
    normF " @Foo" = "@foo" ∧ normI " @Foo" = "Foo" ∧
    (∀ s : String, hasAt s = false → normF s = specNormalizeLower s) := by
  refine ⟨by decide, by decide, ?_⟩
  intro s h
  have hno : ∀ c ∈ s.data, (c == '@') = false := by
    intro c hc
    have h2 := (List.any_eq_false.mp h) c hc
    rwa [Bool.not_eq_true] at h2
  have hmapno : ∀ c ∈ s.data.map lowerChar, (c == '@') = false := by
    intro c hc
    obtain ⟨a, ha, rfl⟩ := List.mem_map.mp hc
    rw [lowerChar_beq_at]
    exact hno a ha
  have hstrip1 : stripAtL (s.data.map lowerChar) = s.data.map lowerChar := by
    apply stripAtL_eq_self
    intro c t hct
    exact hmapno c (by rw [hct]; exact List.mem_cons_self _ _)
  have hstrip2 : stripAtL (trimL s.data) = trimL s.data := by
    apply stripAtL_eq_self
    intro c t hct
    exact hno c (mem_trimL (l := s.data) (by rw [hct]; exact List.mem_cons_self _ _))
  unfold normF specNormalizeLower jsTrim jsStripAt jsToLower
  dsimp only
  rw [hstrip1, hstrip2, trimL_map_lower]

/-- Witness for C4's amended normalization agreement at the handle "Foo ". -/
theorem C4_normalization_order_witness :
    hasAt "Foo " = false ∧ normF "Foo " = specNormalizeLower "Foo " :=
  ⟨by decide, C4_normalization_order.2.2 "Foo " (by decide)⟩

/-- Counterexample to C5 as stated: normalization is not idempotent in either
variant — a second pass strips an '@' (or whitespace) that the first pass
exposed. -/
theorem C5_normalize_idempotence_counterexample :
    normF (normF "@@x") ≠ normF "@@x" ∧ normI (normI "@ x") ≠ normI "@ x" := by
  decide

/-- C5 (amended): normalization is idempotent on every input whose normalized
form does not begin with '@' or whitespace (interactive variant) or with '@'
(frame variant); and in the lower-casing frame variant
`generateMetrics "@Foo"` equals `generateMetrics "foo"`. -/
theorem C5_normalize_idempotent_when_clean (s : String) :
    (headIsAtOrWs (normI s) = false → normI (normI s) = normI s) ∧
    (headIsAt (normF s) = false → normF (normF s) = normF s) ∧
    generateMetricsF "@Foo" = generateMetricsF "foo" := by
  refine ⟨?_, ?_, by decide⟩
  · intro h
    obtain ⟨hAt, hWs⟩ := headIsAtOrWs_false h
    have hlast : lastNo isJsWhitespace (normI s).data := by
      have h1 : (normI s).data = stripAtL (trimL s.data) := rfl
      rw [h1]
      exact lastNo_stripAtL (lastNo_trimL _)
    rw [normI_unfold (normI s), jsTrim_eq_self hWs hlast, jsStripAt_eq_self hAt]
  · intro h
    have hAt : headNo (fun c => c == '@') (normF s).data := headIsAt_false h
    have hdata : (normF s).data = trimL (stripAtL (s.data.map lowerChar)) := rfl
    have hlow : ∀ c ∈ (normF s).data, lowerChar c = c := by
      intro c hc
      rw [hdata] at hc
      exact lower_fixed_of_mem_map (mem_stripAtL (mem_trimL hc))
    have hws1 : headNo isJsWhitespace (normF s).data := by
      rw [hdata]
      exact headNo_trimL _
    have hws2 : lastNo isJsWhitespace (normF s).data := by
      rw [hdata]
      exact lastNo_trimL _
    rw [normF_unfold (normF s), jsToLower_eq_self hlow, jsStripAt_eq_self hAt,
      jsTrim_eq_self hws1 hws2]

/-- Witness for C5's amended idempotence at the handle "abc". -/
theorem C5_normalize_idempotent_witness :
    normI (normI "abc") = normI "abc" ∧ normF (normF "abc") = normF "abc" :=
  ⟨(C5_normalize_idempotent_when_clean "abc").1 (by decide),
   (C5_normalize_idempotent_when_clean "abc").2.1 (by decide)⟩

/-- C6: empty-input fallback — the empty string and every whitespace-only
string yield exactly the metrics of the call site's fallback literal
("maincharacter" interactively, "anon" in the frame responder) rather than
metrics of the empty string's zero hash. -/
theorem C6_empty_fallback :
    generateMetricsI "" = generateMetricsI "maincharacter" ∧
    generateMetricsF "" = generateMetricsF "anon" ∧
    (∀ s : String, (∀ c ∈ s.data, isJsWhitespace c = true) →
      generateMetricsI s = generateMetricsI "maincharacter" ∧
      generateMetricsF s = generateMetricsF "anon") := by
  refine ⟨by decide, by decide, ?_⟩
  intro s h
  constructor
  · apply generateMetricsI_congr
    rw [normI_eq_empty h]
    decide
  · apply generateMetricsF_congr
    rw [normF_eq_empty h]
    decide

/-- Witness for C6 at the whitespace-only handle " ". -/
theorem C6_empty_fallback_witness :
    generateMetricsI " " = generateMetricsI "maincharacter" ∧
    generateMetricsF " " = generateMetricsF "anon" :=
  C6_empty_fallback.2.2 " " (by decide)

/-- C7: hash-variant equivalence — the signed frame accumulator and the
unsigned interactive accumulator agree modulo 2^32 after every step (every
character list), and the frame hash is exactly the absolute value of the
signed-32-bit interpretation of the interactive hash. -/
theorem C7_hash_variants_agree :
    (∀ l : List Char,
      (l.foldl hashStepF 0) % 2 ^ 32 = ((l.foldl hashStepI 0 : Nat) : Int) % 2 ^ 32) ∧
    (∀ s : String, hashHandleF s = |toInt32 ((hashHandleI s : Nat) : Int)|) := by
  constructor
  · intro l
    rw [foldF_eq_foldI_zero]
    exact toInt32_emod _
  · intro s
    unfold hashHandleF hashHandleI
    rw [foldF_eq_foldI_zero]

set_option maxRecDepth 8000 in
/-- C8: frame-responder output — GET returns 200 with the default no-handle
subtitle; POST with inputText "alice" returns 200 with an HTML body whose
subtitle contains "alice" and whose MC/NPC/Armor values are exactly those of
a direct frame-variant generateMetrics call on "alice". -/
theorem C8_frame_responder_output :
    (handleFrameRequest .get none).status = 200 ∧
    strContains ((handleFrameRequest .get none).body.getD "")
      "Drop your handle to scan your Main Character Energy" = true ∧
    (handleFrameRequest .post
      (some { untrustedData := some { inputText := some "alice" } })).status = 200 ∧
    strContains ((handleFrameRequest .post
      (some { untrustedData := some { inputText := some "alice" } })).body.getD "")
      "alice" = true ∧
    strContains ((handleFrameRequest .post
      (some { untrustedData := some { inputText := some "alice" } })).body.getD "")
      ("@alice: MC " ++ toString (generateMetricsF "alice").mainCharacter ++ " · NPC " ++
        toString (generateMetricsF "alice").npcEnergy ++ " · Armor " ++
        (generateMetricsF "alice").plotArmor) = true := by
  decide

/-- Counterexample to C9 as stated: with the credential absent, a POST whose
username is empty gets 400 "Username is required", not the 500
configuration error — the validation check runs first. -/
theorem C9_config_error_counterexample :
    handleProfileProxy .post none (.ok { username := some "" }) (.ok []) =
      { status := 400, body := .err "Username is required" } ∧
    (handleProfileProxy .post none (.ok { username := some "" }) (.ok [])).status ≠ 500 := by
  decide

/-- C9 (amended): when the server credential is absent, every POST whose
parsed body carries a non-empty username returns 500 with the
configuration-error message, whatever the upstream would do; but a missing or
empty username returns 400 even without the credential, because the
username validation precedes the configuration check. -/
theorem C9_missing_key_500 :
    (∀ (u : String) (up : UpstreamResult), u ≠ "" →
      handleProfileProxy .post none (.ok { username := some u }) up =
        { status := 500, body := .err "API key not configured" }) ∧
    (∀ up : UpstreamResult,
      handleProfileProxy .post none (.ok { username := none }) up =
        { status := 400, body := .err "Username is required" }) ∧
    (∀ up : UpstreamResult,
      handleProfileProxy .post none (.ok { username := some "" }) up =
        { status := 400, body := .err "Username is required" }) := by
  refine ⟨?_, ?_, ?_⟩
  · intro u up h
    unfold handleProfileProxy
    rw [if_neg (by decide)]
    dsimp only
    have hu : ¬(some u = none ∨ some u = some "") := by
      rintro (h1 | h2)
      · exact Option.noConfusion h1
      · exact h (Option.some.inj h2)
    rw [if_neg hu, if_pos (Or.inl rfl)]
  · intro up
    unfold handleProfileProxy
    rw [if_neg (by decide)]
    dsimp only
    rw [if_pos (Or.inl rfl)]
  · intro up
    unfold handleProfileProxy
    rw [if_neg (by decide)]
    dsimp only
    rw [if_pos (Or.inr rfl)]

/-- Witness for C9 with the non-empty username "alice" and an arbitrary
concrete upstream outcome. -/
theorem C9_missing_key_500_witness :
    handleProfileProxy .post none (.ok { username := some "alice" }) (.ok []) =
      { status := 500, body := .err "API key not configured" } :=
  C9_missing_key_500.1 "alice" (.ok []) (by decide)

/-- C10: the frame responder's hashHandle always returns a value in
[0, 2^31], so each remainder the frame generateMetrics takes of it
(`% 51`, `% 41`, `% 3` — JavaScript remainder, `Int.tmod`) is applied to a
nonnegative operand and never produces a negative value. -/
theorem C10_frame_hash_nonneg_bounded (s : String) :
    (0 ≤ hashHandleF s ∧ hashHandleF s ≤ 2 ^ 31) ∧
    0 ≤ (hashHandleF s).tmod 51 ∧ 0 ≤ (hashHandleF s).tmod 41 ∧
    0 ≤ (hashHandleF s).tmod 3 :=
  ⟨⟨hashHandleF_nonneg s, hashHandleF_le s⟩,
   Int.tmod_nonneg 51 (hashHandleF_nonneg s),
   Int.tmod_nonneg 41 (hashHandleF_nonneg s),
   Int.tmod_nonneg 3 (hashHandleF_nonneg s)⟩

end MCE
